import Mathlib

/-!
Verification of the blood-donor dashboard (`data.py`): a shallow embedding of
the donor validators, the spreadsheet gateway, the add/update/delete form
controller, the export filter, the CSV serialization and the download/email
handler, together with proofs of the specified properties.

Machine model: the remote sheets are lists of rows; every cell read back from
a sheet is a string (as `gspread.get_all_values` returns).  Python string
operations are modelled on ASCII text (`Char.isDigit`, `Char.isAlpha`,
`Char.toLower`, ...), which is faithful for the data the dashboard handles.
-/

namespace BloodDonor

/-- A donor row as stored in the sheet: five string cells
(name, age, blood_group, contact, location). -/
structure Donor where
  name : String
  age : String
  blood_group : String
  contact : String
  location : String
deriving DecidableEq, Repr

/-- Python `int(s)` on a digit string: decimal value. -/
def strToNat (s : String) : Nat :=
  s.data.foldl (fun acc c => acc * 10 + (c.toNat - '0'.toNat)) 0

/-- `name_valid = bool(name and all(ch.isalpha() or ch.isspace() for ch in name))`
(data.py line 138).  Python's `isalpha`/`isspace` are Unicode-aware; the model
restricts them to the ASCII classes, which the donor data handled by the
dashboard stays within; the claims stated over this gate are insensitive to the
restriction. -/
def name_valid (name : String) : Bool :=
  name ≠ "" && name.data.all (fun ch => ch.isAlpha || ch.isWhitespace)

/-- `age_valid = age.isdigit() and 18 <= int(age) <= 65 if age else False`
(data.py line 139), restricted to ASCII digit strings: this form feeds the
`all_valid` gate of the add-path embedding, whose claims are insensitive to the
restriction.  The Unicode-faithful evaluation of the same line, including the
`int()` exception, is `age_valid_py` below. -/
def age_valid (age : String) : Bool :=
  if age = "" then false
  else age.data.all Char.isDigit && decide (18 ≤ strToNat age) && decide (strToNat age ≤ 65)

/-- `blood_group_valid = bool(blood_group)` (data.py line 140). -/
def blood_group_valid (blood_group : String) : Bool :=
  blood_group ≠ ""

/-- `contact_valid = contact.isdigit() and len(contact) == 10 if contact else False`
(data.py line 141), with `isdigit` restricted to ASCII digits (no `int()` call
follows it, so no exception path is hidden by the restriction). -/
def contact_valid (contact : String) : Bool :=
  if contact = "" then false
  else contact.data.all Char.isDigit && decide (contact.length = 10)

/-- `location_valid = location.isalpha() and len(location) <= 20 if location else False`
(data.py line 142), with `isalpha` restricted to the ASCII class. -/
def location_valid (location : String) : Bool :=
  if location = "" then false
  else location ≠ "" && location.data.all Char.isAlpha && decide (location.length ≤ 20)

/-- `all_valid = name_valid and age_valid and blood_group_valid and contact_valid
and location_valid` (data.py line 144). -/
def all_valid (name age blood_group contact location : String) : Bool :=
  name_valid name && age_valid age && blood_group_valid blood_group &&
    contact_valid contact && location_valid location

/-- The decimal value of a Unicode decimal-digit character (general category
Nd), the class of digits Python's `int()` accepts: `some` of the digit value for
a character in one of the ten-character decimal-digit runs (ASCII, Arabic-Indic,
extended Arabic-Indic, the Brahmic scripts, Thai, Lao, Tibetan, Myanmar, Khmer,
Mongolian, the further BMP runs, fullwidth, and the mathematical digit runs),
`none` for every other character. -/
def decDigitVal? (c : Char) : Option Nat :=
  let n := c.toNat
  let starts : List Nat :=
    [0x30, 0x660, 0x6F0, 0x7C0, 0x966, 0x9E6, 0xA66, 0xAE6, 0xB66, 0xBE6,
     0xC66, 0xCE6, 0xD66, 0xDE6, 0xE50, 0xED0, 0xF20, 0x1040, 0x1090, 0x17E0,
     0x1810, 0x1946, 0x19D0, 0x1A80, 0x1A90, 0x1B50, 0x1BB0, 0x1C40, 0x1C50,
     0xA620, 0xA8D0, 0xA900, 0xA9D0, 0xA9F0, 0xAA50, 0xABF0, 0xFF10,
     0x1D7CE, 0x1D7D8, 0x1D7E2, 0x1D7EC, 0x1D7F6]
  match starts.find? (fun s => s ≤ n && n ≤ s + 9) with
  | some s => some (n - s)
  | none => none

/-- The digit characters beyond the decimal digits that Python's `str.isdigit`
also accepts (`Numeric_Type=Digit`): the superscript, subscript and enclosed
digits.  They carry no decimal value, so `int()` raises `ValueError` on them. -/
def digitNoValue (c : Char) : Bool :=
  let n := c.toNat
  n == 0xB2 || n == 0xB3 || n == 0xB9 || n == 0x2070 ||
  (0x2074 ≤ n && n ≤ 0x2079) || (0x2080 ≤ n && n ≤ 0x2089) ||
  (0x2460 ≤ n && n ≤ 0x2468) || (0x2474 ≤ n && n ≤ 0x247C) ||
  (0x2488 ≤ n && n ≤ 0x2490) || (0x24F5 ≤ n && n ≤ 0x24FD) ||
  (0x2776 ≤ n && n ≤ 0x277E) || (0x2780 ≤ n && n ≤ 0x2788) ||
  (0x278A ≤ n && n ≤ 0x2792)

/-- Python `str.isdigit` on one character: true on the decimal digits and on
the `Numeric_Type=Digit` characters. -/
def pyIsDigitChar (c : Char) : Bool :=
  (decDigitVal? c).isSome || digitNoValue c

/-- The base-10 value of a string of decimal digits (any script), digit by
digit — what `int()` computes when it succeeds. -/
def decValue (s : String) : Nat :=
  s.data.foldl (fun acc c => acc * 10 + (decDigitVal? c).getD 0) 0

/-- Python `int(s)` as the validator reaches it (after `s.isdigit()`, so no
sign, spaces or underscores): succeeds exactly when `s` is non-empty and every
character is a decimal digit, producing the base-10 value; `none` models the
`ValueError` raised when some character (e.g. a superscript digit) has no
decimal value. -/
def pyIntDec (s : String) : Option Nat :=
  if s ≠ "" && s.data.all (fun c => (decDigitVal? c).isSome) then some (decValue s)
  else none

/-- The age check of data.py line 139 as it actually evaluates in Python, with
Unicode `isdigit` semantics and the possible `int` exception made explicit:
`age.isdigit() and 18 <= int(age) <= 65 if age else False`.  Short-circuiting
means `int(age)` runs only after `age.isdigit()` succeeded, but `isdigit` does
not guarantee `int` succeeds: `none` models the uncaught `ValueError`. -/
def age_valid_py (age : String) : Option Bool :=
  if age = "" then some false
  else if age.data.all pyIsDigitChar then
    (pyIntDec age).map (fun v => decide (18 ≤ v) && decide (v ≤ 65))
  else some false

/-- Python's Unicode `isdigit`-based contact check of data.py line 141 (no
`int()` follows it, so it cannot raise). -/
def contact_valid_py (contact : String) : Bool :=
  if contact = "" then false
  else contact.data.all pyIsDigitChar && decide (contact.length = 10)

/-- The whole validation step (data.py lines 138-144) with Unicode digit
semantics on the age and contact fields and exceptions made explicit: `none`
models an uncaught exception, `some` the per-field booleans
`(name_valid, age_valid, blood_group_valid, contact_valid, location_valid, all_valid)`. -/
def validate_py (name age blood_group contact location : String) :
    Option (Bool × Bool × Bool × Bool × Bool × Bool) :=
  (age_valid_py age).bind fun av =>
    some (name_valid name, av, blood_group_valid blood_group, contact_valid_py contact,
      location_valid location,
      name_valid name && av && blood_group_valid blood_group && contact_valid_py contact &&
        location_valid location)

/-- Python `str.lower()`: every character lowercased. -/
def pyLower (s : String) : String :=
  String.mk (s.data.map Char.toLower)

/-- Python `str.capitalize()`: first character uppercased, the rest lowercased. -/
def pyCapitalize (s : String) : String :=
  match s.data with
  | [] => ""
  | c :: cs => String.mk (c.toUpper :: cs.map Char.toLower)

/-- Python `str.strip()`: leading and trailing whitespace removed. -/
def pyStrip (s : String) : String :=
  String.mk (((s.data.dropWhile Char.isWhitespace).reverse.dropWhile
    Char.isWhitespace).reverse)

/-- Helper for Python `str.split()`: accumulate the current word (reversed) and
cut at whitespace, dropping empty pieces. -/
def wordsAux : List Char → List Char → List (List Char)
  | [], acc => if acc = [] then [] else [acc.reverse]
  | c :: cs, acc =>
    if c.isWhitespace then
      if acc = [] then wordsAux cs [] else acc.reverse :: wordsAux cs []
    else wordsAux cs (c :: acc)

/-- Python `str.split()` with no argument: split on whitespace runs, dropping
empty pieces. -/
def pySplitWs (s : String) : List String :=
  (wordsAux s.data []).map String.mk

/-- Python `sep.join(parts)`. -/
def joinWith (sep : String) (parts : List String) : String :=
  String.mk (List.intercalate sep.data (parts.map String.data))

/-- `name = " ".join([part.capitalize() for part in name.strip().split()])`
(data.py line 161). -/
def normalizeName (name : String) : String :=
  joinWith " " ((pySplitWs (pyStrip name)).map pyCapitalize)

/-- `location = location.strip().capitalize()` (data.py line 162). -/
def normalizeLocation (location : String) : String :=
  pyCapitalize (pyStrip location)

/-- The (name case-insensitive, contact) identity of a donor row, the pair the
duplicate checks compare. -/
def donorKey (d : Donor) : String × String :=
  (pyLower d.name, d.contact)

/-- `duplicate = df[(df["name"].str.lower() == name.lower()) & (df["contact"] == contact)]`
is non-empty (data.py lines 165 and 270). -/
def isDuplicate (table : List Donor) (name contact : String) : Bool :=
  table.any (fun d => pyLower d.name == pyLower name && d.contact == contact)

/-- The uniqueness invariant of the donor table: no two rows share the same
(name case-insensitive, contact) pair. -/
def tableUnique : List Donor → Bool
  | [] => true
  | d :: ds => ds.all (fun e => !(donorKey e == donorKey d)) && tableUnique ds

/-- Outcome of the add-donor submit handler. -/
inductive AddOutcome where
  | invalid
  | conflict
  | added
deriving DecidableEq, Repr

/-- Result of an add-donor submission: the donor table afterwards and what was
reported. -/
structure AddState where
  table : List Donor
  outcome : AddOutcome
deriving DecidableEq, Repr

/-- The add-donor submit handler (data.py lines 157-172).  The submit button is
disabled unless `all_valid`, and the handler body runs only under
`if submitted and all_valid:`; it then normalizes name and location, rejects on a
(name case-insensitive, contact) duplicate, and otherwise appends the row
(writing `int(age)`, which the sheet stores and returns as its decimal string). -/
def add_donor_submit (name age blood_group contact location : String)
    (table : List Donor) : AddState :=
  if all_valid name age blood_group contact location then
    let name' := normalizeName name
    let location' := normalizeLocation location
    if isDuplicate table name' contact then ⟨table, .conflict⟩
    else ⟨table ++ [⟨name', toString (strToNat age), blood_group, contact, location'⟩], .added⟩
  else ⟨table, .invalid⟩

/-- Outcome of the Apply Update handler. -/
inductive UpdateOutcome where
  | invalidIndex
  | invalidValues
  | conflict
  | updated
deriving DecidableEq, Repr

/-- The Apply Update handler (data.py lines 253-282).  `row_index` is 1-based over
the donor list.  The handler requires the chosen row to exist, requires
`new_name and new_age.isdigit() and new_contact and new_location`, rejects when a
row with the new (name case-insensitive, contact) pair exists and that pair
differs from the edited row's own prior pair, and otherwise overwrites the row
in place with the provided values (age written as `int(new_age)`). -/
def apply_update (table : List Donor) (row_index : Nat)
    (new_name new_age new_blood new_contact new_location : String) :
    List Donor × UpdateOutcome :=
  match table[row_index - 1]? with
  | none => (table, .invalidIndex)
  | some donor =>
    if new_name ≠ "" && (new_age ≠ "" && new_age.data.all Char.isDigit) &&
        new_contact ≠ "" && new_location ≠ "" then
      if isDuplicate table new_name new_contact &&
          !(pyLower donor.name == pyLower new_name && donor.contact == new_contact) then
        (table, .conflict)
      else
        (table.set (row_index - 1)
          ⟨new_name, toString (strToNat new_age), new_blood, new_contact, new_location⟩,
         .updated)
    else (table, .invalidValues)

/-- The Confirm Delete handler (data.py lines 287-299): physically removes the
1-based `row_index`-th donor row; rows below shift up. -/
def confirm_delete (table : List Donor) (row_index : Nat) : List Donor :=
  if row_index - 1 < table.length then table.eraseIdx (row_index - 1) else table

/-- `get_donors` (data.py lines 68-75): with no sheet handle it returns an empty
frame; otherwise it returns all sheet rows minus the header row, in order, and an
empty frame when the sheet holds at most the header. -/
def get_donors (sheet : Option (List (List String))) : List (List String) :=
  match sheet with
  | none => []
  | some values => if values.length > 1 then values.drop 1 else []

/-- The export filter (data.py lines 211-219): blood-group equality filter unless
"All" was selected, then location set-membership filter unless the selection is
empty or contains "All Locations". -/
def filtered_df (df : List Donor) (blood_group : String)
    (selected_locations : List String) : List Donor :=
  let d1 := if blood_group ≠ "All" then df.filter (fun d => d.blood_group == blood_group)
            else df
  if !(selected_locations.contains "All Locations") then
    if selected_locations ≠ [] then d1.filter (fun d => selected_locations.contains d.location)
    else d1
  else d1

/-- The header line `pandas.to_csv` writes for the donor frame. -/
def csvHeader : List Char :=
  "name,age,blood_group,contact,location".data

/-- One CSV data line: the five cells comma-separated. -/
def serializeRow (d : Donor) : List Char :=
  d.name.data ++ ',' :: (d.age.data ++ ',' :: (d.blood_group.data ++ ',' ::
    (d.contact.data ++ ',' :: d.location.data)))

/-- `csv_data = filtered_df.to_csv(index=False)` (data.py line 222): header line
then one line per row, each line terminated by a newline. -/
def to_csv (df : List Donor) : List Char :=
  csvHeader ++ '\n' :: (df.map (fun d => serializeRow d ++ ['\n'])).flatten

/-- Prepend a character to the first piece of a split result. -/
def consHead (c : Char) : List (List Char) → List (List Char)
  | [] => [[c]]
  | h :: t => (c :: h) :: t

/-- Split a character list at every occurrence of `sep` (the separator consumed),
as Python `str.split(sep)` does: always at least one piece, empty pieces kept. -/
def splitChar (sep : Char) : List Char → List (List Char)
  | [] => [[]]
  | c :: cs => if c = sep then [] :: splitChar sep cs else consHead c (splitChar sep cs)

/-- Parse one CSV data line back into a donor row: exactly five comma-separated
cells. -/
def parseRowFields (line : List Char) : Option Donor :=
  match splitChar ',' line with
  | [n, a, b, c, l] => some ⟨String.mk n, String.mk a, String.mk b, String.mk c, String.mk l⟩
  | _ => none

/-- Parse a sequence of CSV data lines into donor rows; any malformed line
fails the whole parse. -/
def parseRows : List (List Char) → Option (List Donor)
  | [] => some []
  | line :: rest =>
    match parseRowFields line, parseRows rest with
    | some d, some ds => some (d :: ds)
    | _, _ => none

/-- Parse the CSV export: split into lines, drop the header line and the empty
piece after the final newline, and parse each remaining line as a donor row. -/
def parse_csv (s : List Char) : Option (List Donor) :=
  parseRows (((splitChar '\n' s).drop 1).dropLast)

/-- The donor data model of the export (alphabetic-plus-space name, digit age,
enumerated blood group, 10-digit contact, alphabetic location). -/
def donorModelOk (d : Donor) : Bool :=
  (d.name ≠ "" && d.name.data.all (fun ch => ch.isAlpha || ch == ' ')) &&
  (d.age ≠ "" && d.age.data.all Char.isDigit) &&
  ["A+", "A-", "B+", "B-", "O+", "O-", "AB+", "AB-"].contains d.blood_group &&
  contact_valid d.contact &&
  location_valid d.location

/-- Modelled from the spec and the external `email_validator` package (imported,
not part of this repository): the syntactic email-validity check performed by
`validate_email` in `send_email` (data.py line 93).  An address passes when it is
`local@domain` with non-empty local part and a domain that contains a dot and
neither starts nor ends with one. -/
def email_valid (addr : String) : Bool :=
  match splitChar '@' addr.data with
  | [localPart, domain] =>
      localPart ≠ [] && domain.contains '.' &&
        domain.head? ≠ some '.' && domain.getLast? ≠ some '.'
  | _ => false

/-- What `send_email` (data.py lines 91-122) ends up doing. -/
inductive SendOutcome where
  | invalidEmail
  | missingCreds
  | sent
  | smtpFailed
deriving DecidableEq, Repr

/-- `send_email` (data.py lines 91-122): validate the recipient first
(`EmailNotValidError` is caught and reported, and nothing else runs), then
resolve credentials, then attempt the SMTP send of `csv_data`; every failure is
caught and reported, never propagated. -/
def send_email (recipient : String) (csv_data : List Char)
    (creds : Option (String × String)) (smtpOk : Bool) : SendOutcome :=
  if !(email_valid recipient) then .invalidEmail
  else
    match creds with
    | none => .missingCreds
    | some _ => let _ := csv_data; if smtpOk then .sent else .smtpFailed

/-- Whether a `send_email` run reached the SMTP transport at all. -/
def smtpAttempted : SendOutcome → Bool
  | .sent => true
  | .smtpFailed => true
  | _ => false

/-- Whether a `send_email` run reported an error to the user. -/
def sendReportedError : SendOutcome → Bool
  | .sent => false
  | _ => true

/-- One row of the request-log table (Sheet2). -/
structure LogRow where
  recipient : String
  blood_group_filter : String
  location_filter : String
  timestamp : String
deriving DecidableEq, Repr

/-- Outcome of the download-email submit handler. -/
inductive DownloadOutcome where
  | emptyEmail
  | notConfirmed
  | processed (send : SendOutcome)
deriving DecidableEq, Repr

/-- The download-email submit handler (data.py lines 203-240): empty address or
missing confirmation stop everything; otherwise the filtered donor list is
serialized and handed to `send_email`, and afterwards a log row
`[email, blood_group, joined locations or "All Locations", timestamp]` is
appended to the log table unconditionally. -/
def download_submit (email_address : String) (confirm_send : Bool)
    (blood_group : String) (selected_locations : List String)
    (df : List Donor) (log_table : List LogRow) (timestamp : String)
    (creds : Option (String × String)) (smtpOk : Bool) :
    List LogRow × DownloadOutcome :=
  if email_address = "" then (log_table, .emptyEmail)
  else if !confirm_send then (log_table, .notConfirmed)
  else
    let csv_data := to_csv (filtered_df df blood_group selected_locations)
    let send := send_email email_address csv_data creds smtpOk
    let row : LogRow :=
      ⟨email_address, blood_group,
        (if selected_locations ≠ [] then joinWith ", " selected_locations
         else "All Locations"), timestamp⟩
    (log_table ++ [row], .processed send)

/-- The donor-list contact masking (data.py line 178):
`str(x)[:-4] + "****" if len(str(x)) > 4 else "****"`. -/
def maskContact (x : String) : String :=
  if x.length > 4 then String.mk (x.data.take (x.length - 4)) ++ "****" else "****"

/-- Sample donor A of the spec's filter example: blood group O+, location Loc1. -/
def donorA : Donor := ⟨"A", "30", "O+", "1111111111", "Loc1"⟩

/-- Sample donor B of the spec's filter example: blood group O-, location Loc2. -/
def donorB : Donor := ⟨"B", "40", "O-", "2222222222", "Loc2"⟩

/-- Sample donor C of the spec's filter example: blood group O+, location Loc2. -/
def donorC : Donor := ⟨"C", "50", "O+", "3333333333", "Loc2"⟩

/-! ## Helper lemmas and claim theorems -/

/-- C3 counterexample: the validator accepts the Arabic-Indic age "٢٥"
(`isdigit()` holds and `int()` yields 25), yet "٢٥" is not a pure digit string
('٢' and '٥' are not the digit characters '0'-'9'), so "accepts only pure digit
strings in range" fails. -/
theorem age_validator_accepts_nonascii :
    age_valid_py "٢٥" = some true ∧
    ("٢٥" : String).data.all Char.isDigit = false := by
  exact ⟨by decide, by decide⟩

/-- C3 (amended): the age validator accepts exactly the non-empty strings of
Unicode decimal-digit characters (any script) whose base-10 value lies in
[18, 65]; and an `isdigit`-passing string holding a digit character with no
decimal value (e.g. "²") makes `int()` raise instead of being accepted or
rejected. -/
theorem age_validator_unicode_iff :
    (∀ a : String, age_valid_py a = some true ↔
      (a ≠ "" ∧ ∀ c ∈ a.data, (decDigitVal? c).isSome = true) ∧
        18 ≤ decValue a ∧ decValue a ≤ 65) ∧
    age_valid_py "²" = none := by
  refine ⟨fun a => ?_, by decide⟩
  unfold age_valid_py pyIntDec
  by_cases h0 : a = ""
  · simp [h0]
  · rw [if_neg h0]
    by_cases h1 : a.data.all pyIsDigitChar = true
    · rw [if_pos h1]
      by_cases h2 : a.data.all (fun c => (decDigitVal? c).isSome) = true
      · rw [if_pos (by simp [h0, h2])]
        have hmap : Option.map (fun v => decide (18 ≤ v) && decide (v ≤ 65))
            (some (decValue a)) =
            some (decide (18 ≤ decValue a) && decide (decValue a ≤ 65)) := rfl
        rw [hmap]
        constructor
        · intro h
          have hb := Option.some.inj h
          rw [Bool.and_eq_true, decide_eq_true_iff, decide_eq_true_iff] at hb
          exact ⟨⟨h0, List.all_eq_true.mp h2⟩, hb.1, hb.2⟩
        · rintro ⟨⟨-, -⟩, hlo, hhi⟩
          have hb : (decide (18 ≤ decValue a) && decide (decValue a ≤ 65)) = true := by
            rw [Bool.and_eq_true, decide_eq_true_iff, decide_eq_true_iff]
            exact ⟨hlo, hhi⟩
          rw [hb]
      · rw [if_neg (by
          rw [Bool.and_eq_true]
          rintro ⟨-, hh⟩
          exact h2 hh)]
        constructor
        · intro h
          simp at h
        · rintro ⟨⟨-, hall⟩, -, -⟩
          exact absurd (List.all_eq_true.mpr hall) h2
    · rw [if_neg h1]
      constructor
      · intro h
        have := Option.some.inj h
        simp at this
      · rintro ⟨⟨-, hall⟩, -, -⟩
        refine absurd (List.all_eq_true.mpr fun c hc => ?_) h1
        simp [pyIsDigitChar, hall c hc]

/-- C4 counterexample: the age string "²" passes `isdigit()` (it is a
`Numeric_Type=Digit` character) but has no decimal value, so `int("²")` raises
`ValueError` inside the validation step — it does not terminate with per-field
booleans, refuting "no input string causes an exception". -/
theorem validators_throw_on_superscript :
    ("²" : String) ≠ "" ∧ ("²" : String).data.all pyIsDigitChar = true ∧
    validate_py "Bob" "²" "A+" "1234567890" "Town" = none := by
  exact ⟨by decide, by decide, by decide⟩

/-- C4 (amended): the validation step terminates normally with per-field
booleans whenever every `isdigit`-passing character of the age string has a
decimal value; an age string such as "²", passing `isdigit()` while holding a
digit character with no decimal value, instead makes `int()` raise. -/
theorem validators_throw_only_on_digit_gap :
    (∀ name age blood_group contact location : String,
      (∀ c ∈ age.data, pyIsDigitChar c = true → (decDigitVal? c).isSome = true) →
      (validate_py name age blood_group contact location).isSome = true) ∧
    (∀ name blood_group contact location : String,
      validate_py name "²" blood_group contact location = none) := by
  constructor
  · intro name age blood_group contact location h
    have hav : (age_valid_py age).isSome = true := by
      unfold age_valid_py pyIntDec
      by_cases h0 : age = ""
      · simp [h0]
      · rw [if_neg h0]
        by_cases h1 : age.data.all pyIsDigitChar = true
        · rw [if_pos h1]
          have h2 : age.data.all (fun c => (decDigitVal? c).isSome) = true :=
            List.all_eq_true.mpr fun c hc => h c hc (List.all_eq_true.mp h1 c hc)
          rw [if_pos (by simp [h0, h2])]
          rfl
        · rw [if_neg h1]
          rfl
    obtain ⟨av, hen⟩ := Option.isSome_iff_exists.mp hav
    unfold validate_py
    rw [hen]
    rfl
  · intro name blood_group contact location
    have hnone : age_valid_py "²" = none := by decide
    unfold validate_py
    rw [hnone]
    rfl

/-- Witness for C4 (amended) at a concrete all-ASCII input tuple. -/
theorem validators_throw_only_on_digit_gap_witness :
    (validate_py "Ann" "30" "A+" "1234567890" "Town").isSome = true :=
  validators_throw_only_on_digit_gap.1 "Ann" "30" "A+" "1234567890" "Town" (by decide)

/-- C6: the read-all operation returns the sheet's rows minus the header row in
order, and the empty sequence when the sheet handle is absent or the sheet holds
at most the header row. -/
theorem get_donors_spec :
    get_donors none = [] ∧
      ∀ values : List (List String), get_donors (some values) = values.drop 1 := by
  refine ⟨rfl, fun v => ?_⟩
  unfold get_donors
  by_cases h : v.length > 1
  · simp [h]
  · simp only [h, if_false]
    exact (List.drop_eq_nil_of_le (by omega)).symm

/-- C10: in the list view a contact longer than 4 characters keeps its leading
characters and has its last four replaced by `****`, a contact of length ≤ 4
shows exactly `****`, and a (digit-string) contact value never appears in full. -/
theorem contact_masking (x : String) :
    (4 < x.length →
      (maskContact x).length = x.length ∧
      (maskContact x).data.take (x.length - 4) = x.data.take (x.length - 4) ∧
      (maskContact x).data.drop (x.length - 4) = ['*', '*', '*', '*']) ∧
    (x.length ≤ 4 → maskContact x = "****") ∧
    (x ≠ "" → x.data.all Char.isDigit = true → maskContact x ≠ x) := by
  have hxl : x.data.length = x.length := String.length_data x
  have hdata : 4 < x.length →
      (maskContact x).data = x.data.take (x.length - 4) ++ ['*', '*', '*', '*'] := by
    intro h
    unfold maskContact
    rw [if_pos h, String.data_append]
  refine ⟨fun h => ?_, fun h => ?_, fun hne hdig hmask => ?_⟩
  · have hd := hdata h
    have htl : (x.data.take (x.length - 4)).length = x.length - 4 := by
      rw [List.length_take]
      omega
    refine ⟨?_, ?_, ?_⟩
    · rw [← String.length_data (maskContact x), hd, List.length_append, htl]
      simp only [List.length_cons, List.length_nil]
      omega
    · rw [hd, List.take_left' htl]
    · rw [hd, List.drop_left' htl]
  · unfold maskContact
    rw [if_neg (by omega)]
  · have hstar : '*' ∈ x.data := by
      by_cases h : 4 < x.length
      · rw [← hmask, hdata h]
        simp
      · have h2 : maskContact x = "****" := by
          unfold maskContact
          rw [if_neg h]
        rw [← hmask, h2]
        decide
    have hall := List.all_eq_true.mp hdig '*' hstar
    exact absurd hall (by decide)

/-- Witness for C10 at the concrete contacts "1234567890" and "123". -/
theorem contact_masking_witness :
    (4 < ("1234567890" : String).length ∧
      (maskContact "1234567890").data.drop (("1234567890" : String).length - 4) =
        ['*', '*', '*', '*']) ∧
    (("123" : String).length ≤ 4 ∧ maskContact "123" = "****") ∧
    (("1234567890" : String) ≠ "" ∧ "1234567890".data.all Char.isDigit = true ∧
      maskContact "1234567890" ≠ "1234567890") :=
  ⟨⟨by decide, ((contact_masking "1234567890").1 (by decide)).2.2⟩,
   ⟨by decide, (contact_masking "123").2.1 (by decide)⟩,
   ⟨by decide, by decide, (contact_masking "1234567890").2.2 (by decide) (by decide)⟩⟩

/-- C7: the export filter keeps exactly the rows passing the blood-group filter
(no-op when "All" is selected) and the location set-membership filter (no-op
when the selection is empty or contains "All Locations"); instantiated at the
spec's three-donor example. -/
theorem export_filter_spec :
    (∀ (df : List Donor) (blood_group : String) (selected_locations : List String),
      filtered_df df blood_group selected_locations =
        df.filter (fun d =>
          (blood_group == "All" || d.blood_group == blood_group) &&
          (selected_locations.contains "All Locations" || selected_locations.isEmpty ||
            selected_locations.contains d.location))) ∧
    filtered_df [donorA, donorB, donorC] "O+" [] = [donorA, donorC] ∧
    filtered_df [donorA, donorB, donorC] "All" ["Loc2"] = [donorB, donorC] ∧
    filtered_df [donorA, donorB, donorC] "O+" ["Loc2"] = [donorC] := by
  refine ⟨fun df bg locs => ?_, by decide, by decide, by decide⟩
  by_cases hbg : bg = "All"
  · subst hbg
    by_cases hall : "All Locations" ∈ locs
    · simp [filtered_df, hall]
    · by_cases hnil : locs = []
      · subst hnil
        simp [filtered_df]
      · have hie : locs.isEmpty = false := by simp [List.isEmpty_eq_false, hnil]
        simp [filtered_df, hall, hnil, hie]
  · have hb : (bg == "All") = false := by simp [hbg]
    by_cases hall : "All Locations" ∈ locs
    · simp [filtered_df, hbg, hall, hb]
    · by_cases hnil : locs = []
      · subst hnil
        simp [filtered_df, hbg, hb]
      · have hie : locs.isEmpty = false := by simp [List.isEmpty_eq_false, hnil]
        simp [filtered_df, hbg, hall, hnil, hie, hb, Bool.and_comm]

theorem tableUnique_iff (t : List Donor) :
    tableUnique t = true ↔ t.Pairwise (fun a b => donorKey a ≠ donorKey b) := by
  induction t with
  | nil => simp [tableUnique]
  | cons d ds ih =>
    simp [tableUnique, List.all_eq_true, ih, List.pairwise_cons, ne_comm]

theorem isDuplicate_iff (t : List Donor) (name contact : String) :
    isDuplicate t name contact = true ↔
      ∃ d ∈ t, donorKey d = (pyLower name, contact) := by
  simp [isDuplicate, donorKey, Prod.ext_iff]

theorem pairwise_key_set_fresh {t : List Donor} {j : Nat} {r : Donor}
    (hp : t.Pairwise (fun a b => donorKey a ≠ donorKey b))
    (h : ∀ d ∈ t, donorKey d ≠ donorKey r) :
    (t.set j r).Pairwise (fun a b => donorKey a ≠ donorKey b) := by
  induction t generalizing j with
  | nil => simp
  | cons x xs ih =>
    rw [List.pairwise_cons] at hp
    cases j with
    | zero =>
      rw [List.set_cons_zero, List.pairwise_cons]
      exact ⟨fun b hb => fun he => h b (List.mem_cons_of_mem x hb) he.symm, hp.2⟩
    | succ m =>
      rw [List.set_cons_succ, List.pairwise_cons]
      refine ⟨fun b hb => ?_, ih hp.2 (fun d hd => h d (List.mem_cons_of_mem x hd))⟩
      rcases List.mem_or_eq_of_mem_set hb with hb' | rfl
      · exact hp.1 b hb'
      · exact h x (List.mem_cons_self x xs)

theorem pairwise_key_set_same {t : List Donor} {j : Nat} {r donor : Donor}
    (hp : t.Pairwise (fun a b => donorKey a ≠ donorKey b))
    (hj : t[j]? = some donor) (hk : donorKey donor = donorKey r) :
    (t.set j r).Pairwise (fun a b => donorKey a ≠ donorKey b) := by
  induction t generalizing j with
  | nil => simp at hj
  | cons x xs ih =>
    rw [List.pairwise_cons] at hp
    cases j with
    | zero =>
      have hx : donor = x := by simpa using hj.symm
      subst hx
      rw [List.set_cons_zero, List.pairwise_cons]
      exact ⟨fun b hb => hk ▸ hp.1 b hb, hp.2⟩
    | succ m =>
      have hj' : xs[m]? = some donor := by simpa using hj
      rw [List.set_cons_succ, List.pairwise_cons]
      refine ⟨fun b hb => ?_, ih hp.2 hj'⟩
      rcases List.mem_or_eq_of_mem_set hb with hb' | rfl
      · exact hp.1 b hb'
      · exact hk ▸ hp.1 donor (List.getElem?_mem hj')

/-- C2: add, update, and delete each preserve the uniqueness invariant
(no two rows share the same case-insensitive name and contact), and a second
add of an identical (normalized-name case-insensitive, contact) record is
rejected with a conflict and leaves the table unchanged. -/
theorem uniqueness_invariant :
    (∀ (name age blood_group contact location : String) (t : List Donor),
      tableUnique t = true →
      tableUnique (add_donor_submit name age blood_group contact location t).table = true) ∧
    (∀ (t : List Donor) (i : Nat) (nn na nb nc nl : String),
      tableUnique t = true →
      tableUnique (apply_update t i nn na nb nc nl).1 = true) ∧
    (∀ (t : List Donor) (i : Nat),
      tableUnique t = true →
      tableUnique (confirm_delete t i) = true) ∧
    (∀ (name age blood_group contact location : String) (t : List Donor),
      all_valid name age blood_group contact location = true →
      (add_donor_submit name age blood_group contact location
          (add_donor_submit name age blood_group contact location t).table).outcome =
        AddOutcome.conflict ∧
      (add_donor_submit name age blood_group contact location
          (add_donor_submit name age blood_group contact location t).table).table =
        (add_donor_submit name age blood_group contact location t).table) := by
  refine ⟨?_, ?_, ?_, ?_⟩
  · intro name age blood_group contact location t hu
    unfold add_donor_submit
    by_cases hv : all_valid name age blood_group contact location = true
    · rw [if_pos hv]
      by_cases hd : isDuplicate t (normalizeName name) contact = true
      · rw [if_pos hd]
        exact hu
      · rw [if_neg hd]
        rw [tableUnique_iff] at hu ⊢
        rw [List.pairwise_append]
        refine ⟨hu, by simp, fun a ha b hb => ?_⟩
        have hb' : b = ⟨normalizeName name, toString (strToNat age), blood_group, contact,
            normalizeLocation location⟩ := by simpa using hb
        subst hb'
        intro he
        exact hd (isDuplicate_iff t (normalizeName name) contact |>.mpr ⟨a, ha, he⟩)
    · rw [if_neg hv]
      exact hu
  · intro t i nn na nb nc nl hu
    cases hj : t[i - 1]? with
    | none =>
      unfold apply_update
      rw [hj]
      exact hu
    | some donor =>
      unfold apply_update
      rw [hj]
      simp only
      by_cases hcond : (decide (nn ≠ "") && (decide (na ≠ "") && na.data.all Char.isDigit) &&
          decide (nc ≠ "") && decide (nl ≠ "")) = true
      · rw [if_pos hcond]
        by_cases hrej : (isDuplicate t nn nc &&
            !(pyLower donor.name == pyLower nn && donor.contact == nc)) = true
        · rw [if_pos hrej]
          exact hu
        · rw [if_neg hrej]
          simp only
          rw [tableUnique_iff] at hu ⊢
          have hkey :
              donorKey ⟨nn, toString (strToNat na), nb, nc, nl⟩ = (pyLower nn, nc) := rfl
          by_cases hdup : isDuplicate t nn nc = true
          · have hsame : pyLower donor.name = pyLower nn ∧ donor.contact = nc := by
              by_contra hns
              apply hrej
              rw [Bool.and_eq_true]
              refine ⟨hdup, ?_⟩
              simp only [Bool.not_eq_true', Bool.and_eq_false_iff]
              rcases Decidable.not_and_iff_or_not.mp hns with h | h
              · exact Or.inl (by simpa using h)
              · exact Or.inr (by simpa using h)
            exact pairwise_key_set_same hu hj
              (by simp [donorKey, hkey, hsame.1, hsame.2])
          · refine pairwise_key_set_fresh hu (fun d hd he => hdup ?_)
            exact (isDuplicate_iff t nn nc).mpr ⟨d, hd, by rw [he, hkey]⟩
      · rw [if_neg hcond]
        exact hu
  · intro t i hu
    unfold confirm_delete
    by_cases h : i - 1 < t.length
    · rw [if_pos h]
      rw [tableUnique_iff] at hu ⊢
      exact hu.sublist (List.eraseIdx_sublist t (i - 1))
    · rw [if_neg h]
      exact hu
  · intro name age blood_group contact location t hv
    have hdup2 : ∀ t' : List Donor,
        isDuplicate t' (normalizeName name) contact = true →
        (add_donor_submit name age blood_group contact location t').outcome =
            AddOutcome.conflict ∧
          (add_donor_submit name age blood_group contact location t').table = t' := by
      intro t' hd
      unfold add_donor_submit
      rw [if_pos hv, if_pos hd]
      exact ⟨rfl, rfl⟩
    by_cases hd : isDuplicate t (normalizeName name) contact = true
    · have h1 : (add_donor_submit name age blood_group contact location t).table = t := by
        unfold add_donor_submit
        rw [if_pos hv, if_pos hd]
      rw [h1]
      exact hdup2 t hd
    · have h1 : (add_donor_submit name age blood_group contact location t).table =
          t ++ [⟨normalizeName name, toString (strToNat age), blood_group, contact,
            normalizeLocation location⟩] := by
        unfold add_donor_submit
        rw [if_pos hv, if_neg hd]
      rw [h1]
      refine hdup2 _ ?_
      rw [isDuplicate_iff]
      exact ⟨_, List.mem_append_right t (List.mem_singleton_self _), rfl⟩

/-- Witness for C2: the invariant holds after adding a donor to the singleton
table, and an immediate identical re-add is rejected without growing it. -/
theorem uniqueness_invariant_witness :
    tableUnique [donorA] = true ∧
    tableUnique (add_donor_submit "Ann" "30" "A+" "1234567890" "Town" [donorA]).table = true ∧
    all_valid "Ann" "30" "A+" "1234567890" "Town" = true ∧
    (add_donor_submit "Ann" "30" "A+" "1234567890" "Town"
        (add_donor_submit "Ann" "30" "A+" "1234567890" "Town" [donorA]).table).outcome =
      AddOutcome.conflict :=
  ⟨by decide,
   uniqueness_invariant.1 "Ann" "30" "A+" "1234567890" "Town" [donorA] (by decide),
   by decide,
   (uniqueness_invariant.2.2.2 "Ann" "30" "A+" "1234567890" "Town" [donorA] (by decide)).1⟩

/-- C5: updating a row with its own name (up to case) and contact, changing only
non-key fields, never takes the duplicate-conflict path: the overwrite proceeds. -/
theorem update_same_identity_no_conflict
    (t : List Donor) (i : Nat) (nn na nb nc nl : String) (donor : Donor)
    (hu : tableUnique t = true)
    (hget : t[i - 1]? = some donor)
    (hnn : nn ≠ "") (hna : na ≠ "") (hnad : na.data.all Char.isDigit = true)
    (hnc : nc ≠ "") (hnl : nl ≠ "")
    (hname : pyLower nn = pyLower donor.name) (hcontact : nc = donor.contact) :
    (apply_update t i nn na nb nc nl).2 = UpdateOutcome.updated ∧
    (apply_update t i nn na nb nc nl).1 =
      t.set (i - 1) ⟨nn, toString (strToNat na), nb, nc, nl⟩ := by
  unfold apply_update
  rw [hget]
  simp only
  rw [if_pos (by simp [hnn, hna, hnad, hnc, hnl])]
  rw [if_neg (by simp [hname, hcontact])]
  exact ⟨rfl, rfl⟩

/-- C1 counterexample: submitting the export form with the invalid recipient
"not-an-email" (confirmation ticked) leaves the log table changed — a log row is
appended even though the address fails the validity check, contradicting the
claim that the log table is left unchanged. -/
theorem invalid_email_logs_anyway :
    email_valid "not-an-email" = false ∧
    (download_submit "not-an-email" true "All" [] [] [] "2025-01-01 00:00:00"
        (some ("sender", "pass")) true).1 ≠ ([] : List LogRow) := by
  constructor
  · decide
  · decide

/-- C1 (amended): a non-empty recipient failing the syntactic validity check
yields a reported error and no SMTP send attempt, but a request-log row is
still appended: the log table grows by exactly that request's row. -/
theorem invalid_email_no_send_but_logged
    (email blood_group : String) (locs : List String) (df : List Donor)
    (log : List LogRow) (ts : String) (creds : Option (String × String)) (smtpOk : Bool)
    (hne : email ≠ "") (hinv : email_valid email = false) :
    (download_submit email true blood_group locs df log ts creds smtpOk).2 =
      DownloadOutcome.processed SendOutcome.invalidEmail ∧
    sendReportedError SendOutcome.invalidEmail = true ∧
    smtpAttempted SendOutcome.invalidEmail = false ∧
    (download_submit email true blood_group locs df log ts creds smtpOk).1 =
      log ++ [⟨email, blood_group,
        (if locs ≠ [] then joinWith ", " locs else "All Locations"), ts⟩] := by
  unfold download_submit send_email
  rw [if_neg hne]
  rw [if_neg (by decide : ¬(!true) = true)]
  simp only [hinv]
  refine ⟨?_, ?_, ?_, ?_⟩ <;> trivial

/-- Witness for C1 (amended) at the concrete request: recipient "nobody@here",
no filters, empty donor table and log. -/
theorem invalid_email_no_send_but_logged_witness :
    (download_submit "nobody@here" true "All" [] [] [] "2025-01-01 00:00:00"
        none false).1 =
      [] ++ [⟨"nobody@here", "All", "All Locations", "2025-01-01 00:00:00"⟩] :=
  (invalid_email_no_send_but_logged "nobody@here" "All" [] [] [] "2025-01-01 00:00:00"
    none false (by decide) (by decide)).2.2.2

/-- C9 counterexample: update values can satisfy the non-empty/digit gate and
still not be written — renaming row 1 to row 2's (name, contact) identity is
rejected by the duplicate check, so "writes the provided values whenever the
gate holds" is false as stated. -/
theorem update_gate_not_sufficient :
    ("Bob" : String) ≠ "" ∧ ("25" : String) ≠ "" ∧
    ("25" : String).data.all Char.isDigit = true ∧
    ("2222222222" : String) ≠ "" ∧ ("City" : String) ≠ "" ∧
    (apply_update
        [⟨"Alice", "30", "A+", "1111111111", "Town"⟩,
         ⟨"Bob", "25", "B+", "2222222222", "City"⟩]
        1 "Bob" "25" "B+" "2222222222" "City").2 = UpdateOutcome.conflict ∧
    (apply_update
        [⟨"Alice", "30", "A+", "1111111111", "Town"⟩,
         ⟨"Bob", "25", "B+", "2222222222", "City"⟩]
        1 "Bob" "25" "B+" "2222222222" "City").1 =
      [⟨"Alice", "30", "A+", "1111111111", "Town"⟩,
       ⟨"Bob", "25", "B+", "2222222222", "City"⟩] := by
  refine ⟨by decide, by decide, by decide, by decide, by decide, by decide, by decide⟩

/-- C9 (amended): whenever the gate holds (name, contact, location non-empty and
age a digit string) and the new (name case-insensitive, contact) pair does not
collide with a different existing row, the update overwrites the row with the
provided values verbatim — no field validation and no case normalization — and
for some inputs the stored record violates the donor data model. -/
theorem update_writes_unvalidated :
    (∀ (t : List Donor) (i : Nat) (nn na nb nc nl : String) (donor : Donor),
      t[i - 1]? = some donor →
      nn ≠ "" → na ≠ "" → na.data.all Char.isDigit = true → nc ≠ "" → nl ≠ "" →
      (isDuplicate t nn nc = false ∨ (pyLower donor.name = pyLower nn ∧ donor.contact = nc)) →
      apply_update t i nn na nb nc nl =
        (t.set (i - 1) ⟨nn, toString (strToNat na), nb, nc, nl⟩, UpdateOutcome.updated)) ∧
    ((apply_update [⟨"Alice", "30", "A+", "1111111111", "Town"⟩] 1
        "alice zz" "99" "A+" "123" "x y").2 = UpdateOutcome.updated ∧
     (apply_update [⟨"Alice", "30", "A+", "1111111111", "Town"⟩] 1
        "alice zz" "99" "A+" "123" "x y").1 =
       [⟨"alice zz", "99", "A+", "123", "x y"⟩] ∧
     all_valid "alice zz" "99" "A+" "123" "x y" = false ∧
     normalizeName "alice zz" ≠ "alice zz") := by
  refine ⟨fun t i nn na nb nc nl donor hget hnn hna hnad hnc hnl hnoconf => ?_,
    by decide, by decide, by decide, by decide⟩
  unfold apply_update
  rw [hget]
  simp only
  rw [if_pos (by simp [hnn, hna, hnad, hnc, hnl])]
  rw [if_neg (by
    rcases hnoconf with h | ⟨h1, h2⟩
    · simp [h]
    · simp [h1, h2])]

/-- Witness for C9 (amended): a gate-passing, conflict-free update of the
singleton table stores the provided values verbatim. -/
theorem update_writes_unvalidated_witness :
    apply_update [⟨"Alice", "30", "A+", "1111111111", "Town"⟩] 1
        "Bob" "41" "B+" "2222222222" "City" =
      ([⟨"Bob", "41", "B+", "2222222222", "City"⟩], UpdateOutcome.updated) :=
  update_writes_unvalidated.1 [⟨"Alice", "30", "A+", "1111111111", "Town"⟩] 1
    "Bob" "41" "B+" "2222222222" "City" ⟨"Alice", "30", "A+", "1111111111", "Town"⟩
    (by decide) (by decide) (by decide) (by decide) (by decide) (by decide)
    (Or.inl (by decide))

/-- Witness for C5: a same-identity, different-location update of the singleton
table proceeds. -/
theorem update_same_identity_no_conflict_witness :
    (apply_update [⟨"Alice", "30", "A+", "1111111111", "Town"⟩] 1
        "ALICE" "31" "A+" "1111111111" "Paris").2 = UpdateOutcome.updated :=
  (update_same_identity_no_conflict [⟨"Alice", "30", "A+", "1111111111", "Town"⟩] 1
    "ALICE" "31" "A+" "1111111111" "Paris" ⟨"Alice", "30", "A+", "1111111111", "Town"⟩
    (by decide) (by decide) (by decide) (by decide) (by decide) (by decide) (by decide)
    (by decide) (by decide)).1

theorem splitChar_not_mem {sep : Char} {xs : List Char} (h : sep ∉ xs) :
    splitChar sep xs = [xs] := by
  induction xs with
  | nil => rfl
  | cons c cs ih =>
    have hc : c ≠ sep := fun he => h (by rw [← he]; exact List.mem_cons_self c cs)
    have hcs : sep ∉ cs := fun hm => h (List.mem_cons_of_mem c hm)
    simp only [splitChar]
    rw [if_neg hc, ih hcs]
    rfl

theorem splitChar_append {sep : Char} (xs rest : List Char) (h : sep ∉ xs) :
    splitChar sep (xs ++ sep :: rest) = xs :: splitChar sep rest := by
  induction xs with
  | nil =>
    rw [List.nil_append]
    simp [splitChar]
  | cons c cs ih =>
    have hc : c ≠ sep := fun he => h (by rw [← he]; exact List.mem_cons_self c cs)
    have hcs : sep ∉ cs := fun hm => h (List.mem_cons_of_mem c hm)
    rw [List.cons_append]
    simp only [splitChar]
    rw [if_neg hc, ih hcs]
    rfl

theorem splitChar_serializeRow (d : Donor)
    (h1 : ',' ∉ d.name.data) (h2 : ',' ∉ d.age.data) (h3 : ',' ∉ d.blood_group.data)
    (h4 : ',' ∉ d.contact.data) (h5 : ',' ∉ d.location.data) :
    splitChar ',' (serializeRow d) =
      [d.name.data, d.age.data, d.blood_group.data, d.contact.data, d.location.data] := by
  unfold serializeRow
  rw [splitChar_append _ _ h1, splitChar_append _ _ h2, splitChar_append _ _ h3,
    splitChar_append _ _ h4, splitChar_not_mem h5]

theorem parseRowFields_serializeRow (d : Donor)
    (h1 : ',' ∉ d.name.data) (h2 : ',' ∉ d.age.data) (h3 : ',' ∉ d.blood_group.data)
    (h4 : ',' ∉ d.contact.data) (h5 : ',' ∉ d.location.data) :
    parseRowFields (serializeRow d) = some d := by
  unfold parseRowFields
  rw [splitChar_serializeRow d h1 h2 h3 h4 h5]

theorem splitChar_flatten_rows (df : List Donor)
    (h : ∀ d ∈ df, '\n' ∉ serializeRow d) :
    splitChar '\n' ((df.map (fun d => serializeRow d ++ ['\n'])).flatten) =
      df.map serializeRow ++ [[]] := by
  induction df with
  | nil => rfl
  | cons d ds ih =>
    simp only [List.map_cons, List.flatten_cons, List.append_assoc, List.singleton_append]
    rw [splitChar_append _ _ (h d (List.mem_cons_self d ds)),
      ih (fun x hx => h x (List.mem_cons_of_mem d hx))]
    rfl

theorem splitChar_to_csv (df : List Donor)
    (h : ∀ d ∈ df, '\n' ∉ serializeRow d) :
    splitChar '\n' (to_csv df) = csvHeader :: (df.map serializeRow ++ [[]]) := by
  unfold to_csv
  rw [splitChar_append _ _ (by decide), splitChar_flatten_rows df h]

theorem donorModelOk_clean {d : Donor} (h : donorModelOk d = true) :
    (',' ∉ d.name.data ∧ ',' ∉ d.age.data ∧ ',' ∉ d.blood_group.data ∧
      ',' ∉ d.contact.data ∧ ',' ∉ d.location.data) ∧
    '\n' ∉ serializeRow d := by
  simp only [donorModelOk, Bool.and_eq_true] at h
  obtain ⟨⟨⟨⟨⟨hne, hn⟩, ⟨hane, ha⟩⟩, hb⟩, hc⟩, hl⟩ := h
  have hbg : d.blood_group ∈ ["A+", "A-", "B+", "B-", "O+", "O-", "AB+", "AB-"] := by
    simpa using hb
  have hcd : d.contact.data.all Char.isDigit = true := by
    unfold contact_valid at hc
    by_cases hce : d.contact = ""
    · rw [hce] at hc
      simp at hc
    · rw [if_neg hce, Bool.and_eq_true] at hc
      exact hc.1
  have hld : d.location.data.all Char.isAlpha = true := by
    unfold location_valid at hl
    by_cases hle : d.location = ""
    · rw [hle] at hl
      simp at hl
    · rw [if_neg hle, Bool.and_eq_true, Bool.and_eq_true] at hl
      exact hl.1.2
  have hname : ∀ c, c ∈ d.name.data → c ≠ ',' ∧ c ≠ '\n' := by
    intro c hm
    have h' := List.all_eq_true.mp hn c hm
    constructor <;> rintro rfl <;> exact absurd h' (by decide)
  have hage : ∀ c, c ∈ d.age.data → c ≠ ',' ∧ c ≠ '\n' := by
    intro c hm
    have h' := List.all_eq_true.mp ha c hm
    constructor <;> rintro rfl <;> exact absurd h' (by decide)
  have hcon : ∀ c, c ∈ d.contact.data → c ≠ ',' ∧ c ≠ '\n' := by
    intro c hm
    have h' := List.all_eq_true.mp hcd c hm
    constructor <;> rintro rfl <;> exact absurd h' (by decide)
  have hloc : ∀ c, c ∈ d.location.data → c ≠ ',' ∧ c ≠ '\n' := by
    intro c hm
    have h' := List.all_eq_true.mp hld c hm
    constructor <;> rintro rfl <;> exact absurd h' (by decide)
  have hbgc : ',' ∉ d.blood_group.data ∧ '\n' ∉ d.blood_group.data := by
    simp only [List.mem_cons, List.not_mem_nil, or_false] at hbg
    rcases hbg with h' | h' | h' | h' | h' | h' | h' | h' <;> rw [h'] <;> exact (by decide)
  refine ⟨⟨fun hm => (hname ',' hm).1 rfl, fun hm => (hage ',' hm).1 rfl,
    hbgc.1, fun hm => (hcon ',' hm).1 rfl,
    fun hm => (hloc ',' hm).1 rfl⟩, ?_⟩
  intro hm
  simp only [serializeRow, List.mem_append, List.mem_cons] at hm
  rcases hm with h' | h' | h' | h' | h' | h' | h' | h' | h'
  · exact (hname '\n' h').2 rfl
  · exact absurd h' (by decide)
  · exact (hage '\n' h').2 rfl
  · exact absurd h' (by decide)
  · exact hbgc.2 h'
  · exact absurd h' (by decide)
  · exact (hcon '\n' h').2 rfl
  · exact absurd h' (by decide)
  · exact (hloc '\n' h').2 rfl

theorem parseRows_map (df : List Donor) (h : ∀ d ∈ df, donorModelOk d = true) :
    parseRows (df.map serializeRow) = some df := by
  induction df with
  | nil => rfl
  | cons d ds ih =>
    obtain ⟨⟨c1, c2, c3, c4, c5⟩, _⟩ := donorModelOk_clean (h d (List.mem_cons_self d ds))
    simp only [List.map_cons, parseRows]
    rw [parseRowFields_serializeRow d c1 c2 c3 c4 c5,
      ih (fun x hx => h x (List.mem_cons_of_mem d hx))]

/-- C8: serializing a donor table that satisfies the donor data model to the CSV
export format and parsing it back yields the same records, field for field. -/
theorem csv_roundtrip (df : List Donor) (h : df.all donorModelOk = true) :
    parse_csv (to_csv df) = some df := by
  have h' : ∀ d ∈ df, donorModelOk d = true := List.all_eq_true.mp h
  have hlines : ∀ d ∈ df, '\n' ∉ serializeRow d :=
    fun d hd => (donorModelOk_clean (h' d hd)).2
  unfold parse_csv
  rw [splitChar_to_csv df hlines]
  simp only [List.drop_succ_cons, List.drop_zero]
  rw [List.dropLast_concat]
  exact parseRows_map df h'

/-- Witness for C8 at a concrete one-row table satisfying the data model. -/
theorem csv_roundtrip_witness :
    ([⟨"Ann", "30", "O+", "1234567890", "Town"⟩] : List Donor).all donorModelOk = true ∧
    parse_csv (to_csv [⟨"Ann", "30", "O+", "1234567890", "Town"⟩]) =
      some [⟨"Ann", "30", "O+", "1234567890", "Town"⟩] :=
  ⟨by decide, csv_roundtrip [⟨"Ann", "30", "O+", "1234567890", "Town"⟩] (by decide)⟩

end BloodDonor
